import Mathlib

/-!
Shallow embedding of the chat relay server (`src/server.py`) and the
receive-side payload parsing of the GUI client (`src/client.py`).

Modelling conventions:
- a socket is identified by a `Nat`; `reach sock = true` models a socket on
  which `sendall` succeeds, `reach sock = false` one on which it raises;
- the observable effect of the server on the outside world is a `World`:
  the ordered list of `(socket, payload)` pairs successfully written, and
  the list of sockets on which `close` has been called;
- console prints are not modelled (no claim mentions them).
-/

set_option autoImplicit false

/-- One element of the `active_clients` list of `src/server.py`: a dict
`{"username": ..., "sock": ...}`, with the socket named by its identity. -/
structure Entry where
  username : String
  sock : Nat
deriving DecidableEq, Repr

/-- The externally observable effects of socket operations: messages
successfully delivered (in write order) and sockets closed. -/
structure World where
  delivered : List (Nat × String)
  closed : List Nat
deriving DecidableEq, Repr

/-- `sock.close()` (always swallowing errors, hence total). -/
def closeSock (w : World) (sock : Nat) : World :=
  { w with closed := w.closed ++ [sock] }

/-- `send_message_to_client` (src/server.py, lines 14-24): attempt
`sock.sendall(message.encode("utf-8"))`; on failure close the socket and
return `False`, otherwise return `True`. -/
def send_message_to_client (reach : Nat → Bool) (w : World) (sock : Nat)
    (message : String) : Bool × World :=
  if reach sock then
    (true, { w with delivered := w.delivered ++ [(sock, message)] })
  else
    (false, closeSock w sock)

/-- The `for entry in list(active_clients)` loop of `send_messages_to_all`
(src/server.py, lines 32-37): write to each entry of the snapshot in order,
collecting the entries whose write failed into the deferred `to_remove`
list.  Returns `(to_remove, final world)`. -/
def sendLoop (reach : Nat → Bool) (msg : String) :
    List Entry → World → List Entry × World
  | [], w => ([], w)
  | e :: rest, w =>
    let r1 := send_message_to_client reach w e.sock msg
    let r2 := sendLoop reach msg rest r1.2
    (if r1.1 then r2.1 else e :: r2.1, r2.2)

/-- Python's `list.remove` with the `ValueError` swallowed (src/server.py,
lines 40-43): remove the first occurrence of `e`, or leave the list
unchanged when `e` is absent. -/
def removeFirst : List Entry → Entry → List Entry
  | [], _ => []
  | x :: xs, e => if x = e then xs else x :: removeFirst xs e

/-- `send_messages_to_all` (src/server.py, lines 26-46): under
`clients_lock`, write `message` to every client in a copy of
`active_clients`, then remove each entry of the deferred `to_remove` list
from `active_clients`.  Returns the new `active_clients` and the world. -/
def send_messages_to_all (reach : Nat → Bool) (st : List Entry) (w : World)
    (message : String) : List Entry × World :=
  let r := sendLoop reach message st w
  (r.1.foldl removeFirst st, r.2)

/-- One iteration of the receive loop `listen_for_messages` (src/server.py,
lines 48-74) after a chunk decoded to `message` arrived from the client
named `username`: rebroadcast `f"{username}~{message}"` to everyone. -/
def listen_step (reach : Nat → Bool) (username message : String)
    (st : List Entry) (w : World) : List Entry × World :=
  send_messages_to_all reach st w (username ++ "~" ++ message)

/-- The locked removal block of `remove_client` (src/server.py, lines
78-90): find the first entry whose `sock` matches and remove it; if none
matches, `active_clients` is left unchanged. -/
def remove_client_locked (sock : Nat) : List Entry → List Entry
  | [] => []
  | e :: rest =>
    if e.sock = sock then rest else e :: remove_client_locked sock rest

/-- `remove_client` (src/server.py, lines 76-97): remove the entry with the
given socket if present, close the socket, and broadcast the departure
announcement `f"SERVER~{username} has left the chat"`. -/
def remove_client (reach : Nat → Bool) (sock : Nat) (username : String)
    (st : List Entry) (w : World) : List Entry × World :=
  send_messages_to_all reach (remove_client_locked sock st)
    (closeSock w sock) ("SERVER~" ++ username ++ " has left the chat")

/-- The registration step of `client_handler` (src/server.py, lines
121-122): `active_clients.append({"username": username, "sock": ...})`,
an unconditional append.  There is no shutting-down flag anywhere in
`src/server.py`, so registration does not consult any shutdown state. -/
def registry_add (st : List Entry) (e : Entry) : List Entry :=
  st ++ [e]

/-- Modelled from the spec (section 4.1): `add(peer)` gated by the boolean
accepting/shutting-down flag, failing with `ShuttingDown` when invoked
during shutdown and inserting the peer otherwise.  This definition exists
only to be compared with `registry_add`, the add operation of the code. -/
def add_spec (shuttingDown : Bool) (st : List Entry) (e : Entry) :
    Except String (List Entry) :=
  if shuttingDown then Except.error "ShuttingDown" else Except.ok (st ++ [e])

/-- Python's `str.strip()` as used on decoded text in `src/server.py`:
remove leading and trailing whitespace characters.  (Defined structurally
over the character list so that concrete instances evaluate.) -/
def strip (s : String) : String :=
  String.mk
    (((s.toList.dropWhile Char.isWhitespace).reverse.dropWhile
      Char.isWhitespace).reverse)

/-- The first chunk received by `client_handler` from a new connection,
after `recv` returned: either the empty byte string (peer closed), or a
nonempty byte string that decodes to `s`, or a nonempty byte string on
which `.decode("utf-8")` raises. -/
inductive Chunk where
  | empty
  | text (s : String)
  | invalid
deriving DecidableEq, Repr

/-- `client_handler` (src/server.py, lines 99-135), up to and including the
join broadcast.  `recv = none` models `recv` itself raising (the 10s
timeout expiring or an `OSError`), which the outer `except` catches, closing
the socket.  An empty chunk, a chunk failing UTF-8 decoding (the raised
decode error is also caught by the outer `except`) and a chunk whose
decoded text strips to the empty string all abort: the socket is closed and
nothing is registered or broadcast.  Otherwise the stripped text becomes
the username, the entry is appended to `active_clients`, and the join
announcement is broadcast to everyone, the new entry included. -/
def client_handler (reach : Nat → Bool) (recv : Option Chunk) (sock : Nat)
    (st : List Entry) (w : World) : List Entry × World :=
  match recv with
  | none => (st, closeSock w sock)
  | some Chunk.empty => (st, closeSock w sock)
  | some Chunk.invalid => (st, closeSock w sock)
  | some (Chunk.text s) =>
    let username := strip s
    if username = "" then (st, closeSock w sock)
    else
      send_messages_to_all reach (registry_add st ⟨username, sock⟩) w
        ("SERVER~" ++ username ++ " joined the chat")

/-- One iteration of `server_send_messages` (src/server.py, lines 137-152):
an operator line `msg` is stripped; a nonempty result `txt` is broadcast as
`f"SERVER~{txt}"`, an empty result produces no broadcast. -/
def server_send_line (reach : Nat → Bool) (msg : String) (st : List Entry)
    (w : World) : List Entry × World :=
  let txt := strip msg
  if txt = "" then (st, w)
  else send_messages_to_all reach st w ("SERVER~" ++ txt)

/-- Split a character list at the first `'~'`, returning `none` when no
`'~'` occurs — the combination of Python's `"~" in message` test and
`message.split("~", 1)` in `listen_for_messages_from_server`
(src/client.py, lines 56-62). -/
def splitFirstTilde : List Char → Option (List Char × List Char)
  | [] => none
  | c :: rest =>
    if c = '~' then some ([], rest)
    else
      match splitFirstTilde rest with
      | none => none
      | some p => some (c :: p.1, p.2)

/-- The display line produced by `listen_for_messages_from_server`
(src/client.py, lines 56-62) for a received payload: split at the first
`'~'` into `f"[{username}] {content}"` when a `'~'` occurs, otherwise
display the whole payload as `f"[SERVER] {message}"`. -/
def render_received (message : String) : String :=
  match splitFirstTilde message.toList with
  | some p => "[" ++ String.mk p.1 ++ "] " ++ String.mk p.2
  | none => "[SERVER] " ++ message

/-! ### Lock-event trace of one broadcast pass (for the concurrency claim) -/

/-- Lock and socket events of one `send_messages_to_all` call. -/
inductive Ev where
  | acquire
  | release
  | write (sock : Nat)
  | removePeer (sock : Nat)
deriving DecidableEq, Repr

/-- The event trace of `send_messages_to_all` (src/server.py, lines 26-46):
the `with clients_lock:` block spans both the per-peer write loop and the
deferred-removal loop, so the trace is acquire, all writes in snapshot
order, all removals, release. -/
def broadcastTrace (reach : Nat → Bool) (st : List Entry) (msg : String)
    (w : World) : List Ev :=
  Ev.acquire ::
    (st.map (fun e => Ev.write e.sock)
      ++ (sendLoop reach msg st w).1.map (fun e => Ev.removePeer e.sock)
      ++ [Ev.release])

/-- `allWritesHeld held tr = true` iff every `write` event of `tr` happens
while the lock is held (tracking from initial state `held`). -/
def allWritesHeld : Bool → List Ev → Bool
  | _, [] => true
  | _, Ev.acquire :: r => allWritesHeld true r
  | _, Ev.release :: r => allWritesHeld false r
  | held, Ev.write _ :: r => held && allWritesHeld held r
  | held, Ev.removePeer _ :: r => allWritesHeld held r

/-- `anyWriteHeld held tr = true` iff some `write` event of `tr` happens
while the lock is held (tracking from initial state `held`). -/
def anyWriteHeld : Bool → List Ev → Bool
  | _, [] => false
  | _, Ev.acquire :: r => anyWriteHeld true r
  | _, Ev.release :: r => anyWriteHeld false r
  | held, Ev.write _ :: r => held || anyWriteHeld held r
  | held, Ev.removePeer _ :: r => anyWriteHeld held r

/-! ### Characterisation lemmas for the broadcast pass -/

theorem sendLoop_toRemove (reach : Nat → Bool) (msg : String) :
    ∀ (st : List Entry) (w : World),
      (sendLoop reach msg st w).1 = st.filter (fun e => !(reach e.sock))
  | [], _ => rfl
  | e :: rest, w => by
    cases h : reach e.sock <;>
      simp [sendLoop, send_message_to_client, h,
        sendLoop_toRemove reach msg rest]

theorem sendLoop_delivered (reach : Nat → Bool) (msg : String) :
    ∀ (st : List Entry) (w : World),
      (sendLoop reach msg st w).2.delivered
        = w.delivered
          ++ (st.filter (fun e => reach e.sock)).map (fun e => (e.sock, msg))
  | [], _ => by simp [sendLoop]
  | e :: rest, w => by
    cases h : reach e.sock <;>
      simp [sendLoop, send_message_to_client, closeSock, h,
        sendLoop_delivered reach msg rest]

theorem sendLoop_closed (reach : Nat → Bool) (msg : String) :
    ∀ (st : List Entry) (w : World),
      (sendLoop reach msg st w).2.closed
        = w.closed
          ++ (st.filter (fun e => !(reach e.sock))).map (fun e => e.sock)
  | [], _ => by simp [sendLoop]
  | e :: rest, w => by
    cases h : reach e.sock <;>
      simp [sendLoop, send_message_to_client, closeSock, h,
        sendLoop_closed reach msg rest]

theorem removeFirst_of_nodup (e : Entry) :
    ∀ (l : List Entry), l.Nodup →
      removeFirst l e = l.filter (fun x => decide (x ≠ e))
  | [], _ => rfl
  | x :: xs, h => by
    rcases List.nodup_cons.mp h with ⟨hx, hxs⟩
    by_cases hxe : x = e
    · subst hxe
      have hxs' : List.filter (fun y => !decide (y = x)) xs = xs :=
        List.filter_eq_self.mpr (fun a ha => by
          simpa using fun hax : a = x => hx (hax ▸ ha))
      simp [removeFirst, List.filter_cons, hxs']
    · simp [removeFirst, List.filter_cons, hxe,
        removeFirst_of_nodup e xs hxs]

theorem foldl_removeFirst_of_nodup :
    ∀ (rem l : List Entry), l.Nodup →
      rem.foldl removeFirst l = l.filter (fun x => decide (x ∉ rem))
  | [], l, _ => by
    simp only [List.foldl_nil]
    exact (List.filter_eq_self.mpr (fun a _ => by simp)).symm
  | r :: rem, l, h => by
    have h1 : removeFirst l r = l.filter (fun x => decide (x ≠ r)) :=
      removeFirst_of_nodup r l h
    have h2 : (removeFirst l r).Nodup := by
      rw [h1]; exact h.filter _
    calc (r :: rem).foldl removeFirst l
        = rem.foldl removeFirst (removeFirst l r) := rfl
      _ = (removeFirst l r).filter (fun x => decide (x ∉ rem)) :=
          foldl_removeFirst_of_nodup rem _ h2
      _ = (l.filter (fun x => decide (x ≠ r))).filter
            (fun x => decide (x ∉ rem)) := by rw [h1]
      _ = l.filter (fun x => decide (x ∉ r :: rem)) := by
          rw [List.filter_filter]
          exact List.filter_congr (fun a _ => by
            by_cases ha1 : a = r <;> by_cases ha2 : a ∈ rem <;>
              simp [ha1, ha2])

/-- The `active_clients` list resulting from one broadcast pass over a
duplicate-free registry is exactly the sublist of peers whose write
succeeded. -/
theorem send_messages_to_all_clients (reach : Nat → Bool) (st : List Entry)
    (w : World) (msg : String) (h : st.Nodup) :
    (send_messages_to_all reach st w msg).1
      = st.filter (fun e => reach e.sock) := by
  show (sendLoop reach msg st w).1.foldl removeFirst st = _
  rw [sendLoop_toRemove, foldl_removeFirst_of_nodup _ st h]
  exact List.filter_congr (fun a ha => by
    by_cases hr : reach a.sock <;> simp [List.mem_filter, ha, hr])

theorem allWritesHeld_writes (l : List Entry) (r : List Ev) :
    allWritesHeld true (l.map (fun e => Ev.write e.sock) ++ r)
      = allWritesHeld true r := by
  induction l with
  | nil => rfl
  | cons e rest ih => simp [allWritesHeld, ih]

theorem allWritesHeld_removes (l : List Entry) (r : List Ev) :
    allWritesHeld true (l.map (fun e => Ev.removePeer e.sock) ++ r)
      = allWritesHeld true r := by
  induction l with
  | nil => rfl
  | cons e rest ih => simp [allWritesHeld, ih]

/-! ### Claims -/

/-- C1 counterexample: with peers alice (socket 0), bob (socket 1) and
carol (socket 2) registered and every transport writable, when alice sends
`"hello"` the broadcast delivers the payload `"alice~hello"` to alice's own
socket as well — the sender does receive its own message echoed back,
refuting the claim. -/
theorem C1_counterexample :
    (0, "alice~hello") ∈
      (listen_step (fun _ => true) "alice" "hello"
        [⟨"alice", 0⟩, ⟨"bob", 1⟩, ⟨"carol", 2⟩] ⟨[], []⟩).2.delivered := by
  decide

/-- C1 (amended): when a registered peer sends a message, the payload
`"{username}~{message}"` is delivered to every registered peer whose
transport accepts the write — the sender included, since the broadcast loop
iterates over all of `active_clients` with no exclusion of the sender. -/
theorem C1_theorem (reach : Nat → Bool) (username message : String)
    (st : List Entry) (w : World) :
    ∀ e ∈ st, reach e.sock = true →
      (e.sock, username ++ "~" ++ message) ∈
        (listen_step reach username message st w).2.delivered := by
  intro e he hr
  show (e.sock, username ++ "~" ++ message) ∈
    (sendLoop reach (username ++ "~" ++ message) st w).2.delivered
  rw [sendLoop_delivered]
  exact List.mem_append_right _
    (List.mem_map.mpr ⟨e, List.mem_filter.mpr ⟨he, hr⟩, rfl⟩)

/-- C1 witness: concrete instance of the amended claim at the sender's own
entry. -/
theorem C1_witness :
    (0, "alice" ++ "~" ++ "hello") ∈
      (listen_step (fun _ => true) "alice" "hello"
        [⟨"alice", 0⟩, ⟨"bob", 1⟩] ⟨[], []⟩).2.delivered :=
  C1_theorem (fun _ => true) "alice" "hello" [⟨"alice", 0⟩, ⟨"bob", 1⟩]
    ⟨[], []⟩ ⟨"alice", 0⟩ (by decide) rfl

/-- C2 counterexample: already for a single registered reachable peer, the
broadcast pass of `send_messages_to_all` performs its socket write while
`clients_lock` is held, refuting the claim that the writes happen outside
the lock. -/
theorem C2_counterexample :
    anyWriteHeld false
      (broadcastTrace (fun _ => true) [⟨"alice", 0⟩] "hello" ⟨[], []⟩)
      = true := by
  decide

/-- C2 (amended): the broadcast pass iterates over a copy of
`active_clients`, but the whole pass — every per-peer socket write and the
deferred removals — runs inside the `with clients_lock:` block: every write
event of the broadcast trace occurs while the lock is held, so a slow or
blocked peer can stall concurrent add/remove operations for the duration of
the pass. -/
theorem C2_theorem (reach : Nat → Bool) (st : List Entry) (msg : String)
    (w : World) :
    allWritesHeld false (broadcastTrace reach st msg w) = true := by
  show allWritesHeld true
    (st.map (fun e => Ev.write e.sock)
      ++ (sendLoop reach msg st w).1.map (fun e => Ev.removePeer e.sock)
      ++ [Ev.release]) = true
  rw [List.append_assoc, allWritesHeld_writes, allWritesHeld_removes]
  rfl

/-- C3 counterexample: during shutdown the spec's gated `add` must fail
with `ShuttingDown`, but the code's registration step (an unconditional
`active_clients.append` with no shutdown flag anywhere in the program)
still succeeds and inserts the peer. -/
theorem C3_counterexample :
    add_spec true [] ⟨"alice", 0⟩ = Except.error "ShuttingDown" ∧
      registry_add [] ⟨"alice", 0⟩ = [⟨"alice", 0⟩] ∧
      Except.ok (registry_add [] ⟨"alice", 0⟩) ≠ add_spec true [] ⟨"alice", 0⟩ := by
  refine ⟨rfl, rfl, ?_⟩
  simp [registry_add, add_spec]

/-- C3 (amended): the code's add operation never fails: it unconditionally
appends the peer (no duplicate-name check), and it agrees with the spec's
shutdown-gated `add` exactly when the shutting-down flag is false — the
code maintains no such flag, so during shutdown it still inserts instead of
signalling `ShuttingDown`. -/
theorem C3_theorem (b : Bool) (st : List Entry) (e : Entry) :
    registry_add st e = st ++ [e] ∧
      (add_spec b st e = Except.ok (registry_add st e) ↔ b = false) := by
  refine ⟨rfl, ?_⟩
  cases b <;> simp [add_spec, registry_add]

/-- C4: in a broadcast pass over a duplicate-free registry, the deferred
removal list is exactly the failing peers (each recorded once, never
retried), the payload is still delivered to every reachable peer of the
snapshot, and after the pass every failing peer has been closed and removed
from the registry exactly once while every reachable peer remains. -/
theorem C4_theorem (reach : Nat → Bool) (st : List Entry) (w : World)
    (msg : String) (h : st.Nodup) :
    ((sendLoop reach msg st w).1 = st.filter (fun e => !(reach e.sock))) ∧
    (∀ e ∈ st, reach e.sock = false →
      (sendLoop reach msg st w).1.count e = 1) ∧
    (∀ e ∈ st, reach e.sock = true →
      (e.sock, msg) ∈ (send_messages_to_all reach st w msg).2.delivered) ∧
    (∀ e ∈ st, reach e.sock = false →
      e.sock ∈ (send_messages_to_all reach st w msg).2.closed) ∧
    (∀ e ∈ st, reach e.sock = false →
      e ∉ (send_messages_to_all reach st w msg).1) ∧
    (∀ e ∈ st, reach e.sock = true →
      e ∈ (send_messages_to_all reach st w msg).1) := by
  refine ⟨sendLoop_toRemove reach msg st w, ?_, ?_, ?_, ?_, ?_⟩
  · intro e he hr
    rw [sendLoop_toRemove]
    exact List.count_eq_one_of_mem (h.filter _)
      (List.mem_filter.mpr ⟨he, by simp [hr]⟩)
  · intro e he hr
    show (e.sock, msg) ∈ (sendLoop reach msg st w).2.delivered
    rw [sendLoop_delivered]
    exact List.mem_append_right _
      (List.mem_map.mpr ⟨e, List.mem_filter.mpr ⟨he, hr⟩, rfl⟩)
  · intro e he hr
    show e.sock ∈ (sendLoop reach msg st w).2.closed
    rw [sendLoop_closed]
    exact List.mem_append_right _
      (List.mem_map.mpr ⟨e, List.mem_filter.mpr ⟨he, by simp [hr]⟩, rfl⟩)
  · intro e he hr
    rw [send_messages_to_all_clients reach st w msg h]
    simp [List.mem_filter, hr]
  · intro e he hr
    rw [send_messages_to_all_clients reach st w msg h]
    exact List.mem_filter.mpr ⟨he, hr⟩

/-- C4 witness: peers a (socket 0), b (socket 1), c (socket 2), where
writes to socket 1 fail: the payload reaches 0, socket 1 is closed, and b
is removed from the registry. -/
theorem C4_witness :
    (0, "m") ∈ (send_messages_to_all (fun s => s != 1)
        [⟨"a", 0⟩, ⟨"b", 1⟩, ⟨"c", 2⟩] ⟨[], []⟩ "m").2.delivered ∧
    (1 : Nat) ∈ (send_messages_to_all (fun s => s != 1)
        [⟨"a", 0⟩, ⟨"b", 1⟩, ⟨"c", 2⟩] ⟨[], []⟩ "m").2.closed ∧
    (⟨"b", 1⟩ : Entry) ∉ (send_messages_to_all (fun s => s != 1)
        [⟨"a", 0⟩, ⟨"b", 1⟩, ⟨"c", 2⟩] ⟨[], []⟩ "m").1 := by
  have H := C4_theorem (fun s => s != 1) [⟨"a", 0⟩, ⟨"b", 1⟩, ⟨"c", 2⟩]
    ⟨[], []⟩ "m" (by decide)
  exact ⟨H.2.2.1 ⟨"a", 0⟩ (by decide) (by decide),
    H.2.2.2.1 ⟨"b", 1⟩ (by decide) (by decide),
    H.2.2.2.2.1 ⟨"b", 1⟩ (by decide) (by decide)⟩

theorem splitFirstTilde_first (c : List Char) :
    ∀ (u : List Char), '~' ∉ u →
      splitFirstTilde (u ++ '~' :: c) = some (u, c)
  | [], _ => by simp [splitFirstTilde]
  | x :: u, h => by
    have hx : ¬(x = '~') := fun hx => h (by rw [hx]; exact List.mem_cons_self _ _)
    have hu : '~' ∉ u := fun hm => h (List.mem_cons_of_mem x hm)
    simp [splitFirstTilde, hx, splitFirstTilde_first c u hu]

theorem splitFirstTilde_none :
    ∀ (m : List Char), '~' ∉ m → splitFirstTilde m = none
  | [], _ => rfl
  | x :: m, h => by
    have hx : ¬(x = '~') := fun hx => h (by rw [hx]; exact List.mem_cons_self _ _)
    have hm : '~' ∉ m := fun hmm => h (List.mem_cons_of_mem x hmm)
    simp [splitFirstTilde, hx, splitFirstTilde_none m hm]

/-- C5: the receiving client splits a payload on the first `'~'` only — a
payload built from a tilde-free sender name `u` and an arbitrary content
`c` (which may itself contain `'~'`) is displayed as sender `u` with the
whole of `c` as content — and a payload containing no `'~'` is displayed
as a server-origin message with no sender tag. -/
theorem C5_theorem (u c : List Char) (m : String)
    (hu : '~' ∉ u) (hm : '~' ∉ m.toList) :
    render_received (String.mk (u ++ '~' :: c))
        = "[" ++ String.mk u ++ "] " ++ String.mk c ∧
      render_received m = "[SERVER] " ++ m := by
  constructor
  · have hs : splitFirstTilde (String.mk (u ++ '~' :: c)).toList
        = some (u, c) := splitFirstTilde_first c u hu
    unfold render_received
    rw [hs]
  · have hn : splitFirstTilde m.toList = none :=
      splitFirstTilde_none m.toList hm
    unfold render_received
    rw [hn]

/-- C5 witness: the payload `"bob~a~b"` (sender `bob`, content `"a~b"`) is
displayed as sender `bob` with content `"a~b"`, and a tilde-free payload is
displayed as server-origin. -/
theorem C5_witness :
    render_received (String.mk ("bob".toList ++ '~' :: "a~b".toList))
        = "[" ++ String.mk "bob".toList ++ "] " ++ String.mk "a~b".toList ∧
      render_received "hello" = "[SERVER] " ++ "hello" :=
  C5_theorem "bob".toList "a~b".toList "hello" (by decide) (by decide)

/-- C6: a handshake whose `recv` raises (timeout or connection error), or
whose chunk is the empty byte string (connection closed before data), or
whose decoded chunk strips to the empty string, aborts: the socket is
closed, `active_clients` is unchanged (no registration) and nothing is
broadcast to anyone. -/
theorem C6_theorem (reach : Nat → Bool) (sock : Nat) (st : List Entry)
    (w : World) (s : String) (hs : strip s = "") :
    client_handler reach none sock st w = (st, closeSock w sock) ∧
      client_handler reach (some Chunk.empty) sock st w
        = (st, closeSock w sock) ∧
      client_handler reach (some (Chunk.text s)) sock st w
        = (st, closeSock w sock) := by
  refine ⟨rfl, rfl, ?_⟩
  simp [client_handler, hs]

/-- C6 witness: a whitespace-only handshake payload `"   "` closes the
connection, registers nobody and broadcasts nothing. -/
theorem C6_witness :
    client_handler (fun _ => true) (some (Chunk.text "   ")) 7
        [⟨"bob", 1⟩] ⟨[], []⟩
      = ([⟨"bob", 1⟩], closeSock ⟨[], []⟩ 7) :=
  (C6_theorem (fun _ => true) 7 [⟨"bob", 1⟩] ⟨[], []⟩ "   " (by decide)).2.2

/-- C7: the locked removal block of `remove_client` on a registry that
contains no entry with the given socket leaves `active_clients` unchanged
(and, being a total function, returns normally). -/
theorem C7_theorem (sock : Nat) (st : List Entry)
    (h : ∀ e ∈ st, e.sock ≠ sock) :
    remove_client_locked sock st = st := by
  induction st with
  | nil => rfl
  | cons e rest ih =>
    have he : ¬(e.sock = sock) := h e (List.mem_cons_self e rest)
    simp [remove_client_locked, he,
      ih (fun x hx => h x (List.mem_cons_of_mem e hx))]

/-- C7 witness: removing absent socket 5 from a two-peer registry is a
no-op. -/
theorem C7_witness :
    remove_client_locked 5 [⟨"alice", 0⟩, ⟨"bob", 1⟩]
      = [⟨"alice", 0⟩, ⟨"bob", 1⟩] :=
  C7_theorem 5 [⟨"alice", 0⟩, ⟨"bob", 1⟩] (by decide)

/-- C8 counterexample: the operator line `"  hi  "` is non-empty, but the
broadcast payload is the stripped `"SERVER~hi"`, not the verbatim
`"SERVER~  hi  "`; and the whitespace-only (hence non-empty) line `"   "`
produces no broadcast at all — both refute the claim as stated. -/
theorem C8_counterexample :
    (server_send_line (fun _ => true) "  hi  " [⟨"bob", 1⟩] ⟨[], []⟩).2.delivered
        = [(1, "SERVER~hi")] ∧
      (1, "SERVER~  hi  ") ∉
        (server_send_line (fun _ => true) "  hi  " [⟨"bob", 1⟩] ⟨[], []⟩).2.delivered ∧
      server_send_line (fun _ => true) "   " [⟨"bob", 1⟩] ⟨[], []⟩
        = ([⟨"bob", 1⟩], ⟨[], []⟩) := by
  refine ⟨by decide, by decide, by decide⟩

/-- C8 (amended): an operator line whose whitespace-stripped form is
non-empty is broadcast to every registered reachable peer as
`"SERVER~{stripped line}"`; a line stripping to the empty string
(empty or whitespace-only) produces no broadcast. -/
theorem C8_theorem (reach : Nat → Bool) (line : String) (st : List Entry)
    (w : World) :
    (strip line = "" → server_send_line reach line st w = (st, w)) ∧
      (strip line ≠ "" → ∀ e ∈ st, reach e.sock = true →
        (e.sock, "SERVER~" ++ strip line) ∈
          (server_send_line reach line st w).2.delivered) := by
  constructor
  · intro h
    simp [server_send_line, h]
  · intro h e he hr
    have hl : server_send_line reach line st w
        = send_messages_to_all reach st w ("SERVER~" ++ strip line) := by
      simp [server_send_line, h]
    rw [hl]
    show (e.sock, "SERVER~" ++ strip line) ∈
      (sendLoop reach ("SERVER~" ++ strip line) st w).2.delivered
    rw [sendLoop_delivered]
    exact List.mem_append_right _
      (List.mem_map.mpr ⟨e, List.mem_filter.mpr ⟨he, hr⟩, rfl⟩)

/-- C8 witness: the line `" hi "` reaches bob as `"SERVER~hi"`, and the
line `" "` is not broadcast. -/
theorem C8_witness :
    server_send_line (fun _ => true) " " [⟨"bob", 1⟩] ⟨[], []⟩
        = ([⟨"bob", 1⟩], ⟨[], []⟩) ∧
      (1, "SERVER~" ++ strip " hi ") ∈
        (server_send_line (fun _ => true) " hi " [⟨"bob", 1⟩] ⟨[], []⟩).2.delivered :=
  ⟨(C8_theorem (fun _ => true) " " [⟨"bob", 1⟩] ⟨[], []⟩).1 (by decide),
    (C8_theorem (fun _ => true) " hi " [⟨"bob", 1⟩] ⟨[], []⟩).2 (by decide)
      ⟨"bob", 1⟩ (by decide) rfl⟩

/-- C9: after a successful handshake the peer is appended to
`active_clients` before the join broadcast, and the broadcast pass covers
every registered peer, so the newly registered peer itself (when its
transport is writable) also receives the join announcement
`"SERVER~{displayName} joined the chat"`. -/
theorem C9_theorem (reach : Nat → Bool) (s : String) (sock : Nat)
    (st : List Entry) (w : World) (hs : strip s ≠ "")
    (hr : reach sock = true) :
    (sock, "SERVER~" ++ strip s ++ " joined the chat") ∈
      (client_handler reach (some (Chunk.text s)) sock st w).2.delivered := by
  have hch : client_handler reach (some (Chunk.text s)) sock st w
      = send_messages_to_all reach (st ++ [⟨strip s, sock⟩]) w
          ("SERVER~" ++ strip s ++ " joined the chat") := by
    simp [client_handler, registry_add, hs]
  rw [hch]
  show (sock, "SERVER~" ++ strip s ++ " joined the chat") ∈
    (sendLoop reach ("SERVER~" ++ strip s ++ " joined the chat")
      (st ++ [⟨strip s, sock⟩]) w).2.delivered
  rw [sendLoop_delivered]
  refine List.mem_append_right _
    (List.mem_map.mpr ⟨⟨strip s, sock⟩, ?_, rfl⟩)
  exact List.mem_filter.mpr
    ⟨List.mem_append_right st (List.mem_cons_self _ _), hr⟩

/-- C9 witness: alice, handshaking on socket 3 with bob already registered,
receives her own join announcement. -/
theorem C9_witness :
    (3, "SERVER~" ++ strip "alice" ++ " joined the chat") ∈
      (client_handler (fun _ => true) (some (Chunk.text "alice")) 3
        [⟨"bob", 1⟩] ⟨[], []⟩).2.delivered :=
  C9_theorem (fun _ => true) "alice" 3 [⟨"bob", 1⟩] ⟨[], []⟩ (by decide) rfl

/-- C10: a handshake chunk that fails UTF-8 decoding aborts exactly like
the other handshake failures: the decode error is caught, the socket is
closed, `active_clients` is unchanged (no registration) and nothing is
broadcast — the best-effort fallback representation is not applied at
handshake time. -/
theorem C10_theorem (reach : Nat → Bool) (sock : Nat) (st : List Entry)
    (w : World) :
    client_handler reach (some Chunk.invalid) sock st w
      = (st, closeSock w sock) := rfl
